import Mathlib

/-
Verification of the viewer state/controller subsystem of the `Inner` component
(src/packages/rpv/src/layouts/Inner.tsx).

The embedding translates the controller's React state and the methods exposed to
plugins through the capability object into pure Lean functions over an explicit
state record.  Numbers coming from the DOM or from callers (sizes, scales,
offsets, ratios) are modelled as rationals; page indices as integers (JS
numbers supplied by callers) or naturals (array positions).  Asynchronous
continuations (`jumpToDest`'s geometry fetch) are split into a synchronous
start phase and a resolve phase that runs against the controller state current
at resolution time.  Host callbacks and plugin lifecycle hooks are modelled by
the value they would be invoked with (or by call traces), since their bodies
are external.
-/

namespace RPV

/-- A file object: the parts of a DOM `File` / `OpenFile` descriptor the
controller looks at (its name and its binary content). -/
structure JSFile where
  name : String
  content : List Nat
deriving DecidableEq

/-- `ViewerState` (src/types/ViewerState): the canonical snapshot
`{file, pageIndex, rotation, scale}`. -/
structure ViewerState where
  file : JSFile
  pageIndex : Int
  rotation : Int
  scale : ℚ
deriving DecidableEq

/-- `Match` (src/search/Match): `{matchIndex, pageIndex}`, `-1` meaning no
active match. -/
structure Match where
  matchIndex : Int
  pageIndex : Int
deriving DecidableEq

/-- The geometry of the mounted pages container (`pagesRef.current`):
`offsetWidth`, `offsetHeight` and the mutable `scrollTop`. -/
structure PagesEle where
  offsetWidth : ℚ
  offsetHeight : ℚ
  scrollTop : ℚ
deriving DecidableEq

/-- The geometry of one mounted page wrapper (`pageRefs[i].current`). -/
structure PageEle where
  offsetTop : ℚ
deriving DecidableEq

/-- `SpecialZoomLevel` (src/SpecialZoomLevel). -/
inductive SpecialZoomLevel
  | ActualSize
  | PageFit
  | PageWidth
deriving DecidableEq

/-- Argument of `zoom` and the `scaleTo` of `jumpToDest`: a numeric factor or a
special level (`number | SpecialZoomLevel` in the source). -/
inductive ZoomArg
  | special (level : SpecialZoomLevel)
  | numeric (factor : ℚ)
deriving DecidableEq

/-- A plugin (src/types/Plugin): every hook optional.  `onViewerStateChange`
is carried as a function; the bodies of `install`/`uninstall` are external,
so only their presence is recorded (their invocations are modelled as a call
trace below). -/
structure Plugin where
  onViewerStateChange : Option (ViewerState → ViewerState) := none
  hasInstall : Bool := false
  hasUninstall : Bool := false

/-- The controller state owned by `Inner`: the React state variables `scale`,
`currentPage`, `rotation`, `match` (named `matchState` here, `match` being a
Lean keyword), the ref `stateRef` holding the canonical `ViewerState`, and the
DOM refs `pagesRef` / `pageRefs` (`none` when unmounted). -/
structure InnerState where
  scale : ℚ
  currentPage : Int
  rotation : Int
  matchState : Match
  stateRef : ViewerState
  pagesRef : Option PagesEle
  pageRefs : List (Option PageEle)
deriving DecidableEq

/-- `const SCROLL_BAR_WIDTH = 17`. -/
def SCROLL_BAR_WIDTH : ℚ := 17

/-- `const PAGE_PADDING = 8`. -/
def PAGE_PADDING : ℚ := 8

/-- The state of `Inner` right after the first render: `scale` from
`pageSize.scale`, `currentPage = 0`, `rotation = 0`, match indices `-1`,
`stateRef` initialised to the `viewerState` prop, DOM refs not yet attached. -/
def initialInnerState (pageScale : ℚ) (viewerStateProp : ViewerState) (numPages : Nat) :
    InnerState :=
  { scale := pageScale
    currentPage := 0
    rotation := 0
    matchState := { matchIndex := -1, pageIndex := -1 }
    stateRef := viewerStateProp
    pagesRef := none
    pageRefs := List.replicate numPages none }

/-- One step of the `setViewerState` loop body:
`if (plugin.onViewerStateChange) newState = plugin.onViewerStateChange(newState)`. -/
def applyHook (plugin : Plugin) (state : ViewerState) : ViewerState :=
  match plugin.onViewerStateChange with
  | some f => f state
  | none => state

/-- The `plugins.forEach` loop of `setViewerState`, threading `newState`
through every plugin in list order. -/
def applyHooks (plugins : List Plugin) (state : ViewerState) : ViewerState :=
  plugins.foldl (fun newState plugin => applyHook plugin newState) state

/-- `setViewerState` (Inner.tsx:84-93): runs every plugin's
`onViewerStateChange` over the incoming state and stores the result in
`stateRef.current`. -/
def setViewerState (plugins : List Plugin) (st : InnerState) (viewerState : ViewerState) :
    InnerState :=
  { st with stateRef := applyHooks plugins viewerState }

/-- `getViewerState` (Inner.tsx:97): returns `stateRef.current`.  Modelled as
returning the read value together with the (unchanged) controller state, to
express that reading mutates nothing. -/
def getViewerStateOp (st : InnerState) : ViewerState × InnerState :=
  (st.stateRef, st)

/-- `rotate` (Inner.tsx:232-240): stores the argument in the `rotation` state
and pushes `{file, pageIndex: currentPage, rotation: updateRotation, scale}`
through the viewer-state update path.  `propFile` is the `viewerState.file`
prop read by the source. -/
def rotate (plugins : List Plugin) (propFile : JSFile) (st : InnerState)
    (updateRotation : Int) : InnerState :=
  { st with
    rotation := updateRotation
    stateRef := applyHooks plugins
      { file := propFile
        pageIndex := st.currentPage
        rotation := updateRotation
        scale := st.scale } }

/-- `zoom` (Inner.tsx:178-213): no-op when `pagesRef.current` is null;
otherwise computes `updateScale` from the argument (`ActualSize → 1`,
`PageFit → min((W - SCROLL_BAR_WIDTH)/pageWidth, (H - 2*PAGE_PADDING)/pageHeight)`,
`PageWidth → (W - SCROLL_BAR_WIDTH)/pageWidth`, numeric → itself), stores it in
the `scale` state and pushes the updated snapshot through `setViewerState`. -/
def zoom (plugins : List Plugin) (propFile : JSFile) (pageWidth pageHeight : ℚ)
    (st : InnerState) (newScale : ZoomArg) : InnerState :=
  match st.pagesRef with
  | none => st
  | some pagesEle =>
    let updateScale : ℚ :=
      match newScale with
      | ZoomArg.special SpecialZoomLevel.ActualSize => 1
      | ZoomArg.special SpecialZoomLevel.PageFit =>
          min ((pagesEle.offsetWidth - SCROLL_BAR_WIDTH) / pageWidth)
              ((pagesEle.offsetHeight - 2 * PAGE_PADDING) / pageHeight)
      | ZoomArg.special SpecialZoomLevel.PageWidth =>
          (pagesEle.offsetWidth - SCROLL_BAR_WIDTH) / pageWidth
      | ZoomArg.numeric factor => factor
    { st with
      scale := updateScale
      stateRef := applyHooks plugins
        { file := propFile
          pageIndex := st.currentPage
          rotation := st.rotation
          scale := updateScale } }

/-- `jumpToPage` (Inner.tsx:145-155): early return when the index is out of
`[0, numPages)`; otherwise, when both the pages container and the target page
refs are attached, sets the container's `scrollTop` to the target's
`offsetTop`; in every in-range case sets `currentPage` to the index. -/
def jumpToPage (numPages : Nat) (st : InnerState) (pageIndex : Int) : InnerState :=
  if pageIndex < 0 ∨ (numPages : Int) ≤ pageIndex then st
  else
    let scrolled :=
      match st.pagesRef with
      | some pagesContainer =>
        match st.pageRefs.getD pageIndex.toNat none with
        | some targetPage =>
            { st with pagesRef := some { pagesContainer with scrollTop := targetPage.offsetTop } }
        | none => st
      | none => st
    { scrolled with currentPage := pageIndex }

end RPV

namespace RPV

/-- Claim C1: `setViewerState(s)` threads `s` through every installed plugin's
`onViewerStateChange` hook in install order, each hook receiving the previous
hook's output; the final result becomes the canonical state, an immediately
following `getViewerState()` returns it, and reading again without an
intervening `setViewerState` returns the same value (reads do not mutate the
controller state). -/
theorem setViewerState_threads_hooks (plugins : List Plugin) (st : InnerState)
    (s : ViewerState) :
    (getViewerStateOp (setViewerState plugins st s)).1 = applyHooks plugins s
    ∧ (∀ (p : Plugin) (ps : List Plugin) (x : ViewerState),
        applyHooks (p :: ps) x = applyHooks ps (applyHook p x))
    ∧ (∀ (x : ViewerState), applyHooks [] x = x)
    ∧ (getViewerStateOp (setViewerState plugins st s)).2 = setViewerState plugins st s
    ∧ (getViewerStateOp ((getViewerStateOp (setViewerState plugins st s)).2)).1
        = (getViewerStateOp (setViewerState plugins st s)).1 := by
  exact ⟨rfl, fun p ps x => rfl, fun x => rfl, rfl, rfl⟩

/-- Claim C10: `setViewerState` only rewrites the canonical snapshot held in
`stateRef`; the rendered state — `scale`, `currentPage`, `rotation`, the match
state and the DOM refs — is untouched, so the call itself causes no
navigation, zoom, rotation or re-render. -/
theorem setViewerState_frame (plugins : List Plugin) (st : InnerState) (s : ViewerState) :
    (setViewerState plugins st s).scale = st.scale
    ∧ (setViewerState plugins st s).currentPage = st.currentPage
    ∧ (setViewerState plugins st s).rotation = st.rotation
    ∧ (setViewerState plugins st s).matchState = st.matchState
    ∧ (setViewerState plugins st s).pagesRef = st.pagesRef
    ∧ (setViewerState plugins st s).pageRefs = st.pageRefs
    ∧ setViewerState plugins st s = { st with stateRef := applyHooks plugins s } := by
  exact ⟨rfl, rfl, rfl, rfl, rfl, rfl, rfl⟩

/-- A sample canonical viewer state used to build concrete controller states. -/
def sampleViewerState : ViewerState :=
  { file := { name := "doc.pdf", content := [] }
    pageIndex := 0
    rotation := 0
    scale := 1 }

/-- A freshly mounted controller over a three-page document (all DOM refs still
unattached). -/
def sampleInner : InnerState := initialInnerState 1 sampleViewerState 3

/-- Claim C8 counterexample: `rotate(45)` — a single capability-object
operation from the initial state, with no plugins installed — produces a
canonical viewer state whose rotation field is `45`, which is not an element
of `{0, 90, 180, 270}`. -/
theorem rotate_45_escapes_rotation_set :
    (rotate [] sampleViewerState.file sampleInner 45).stateRef.rotation = 45
    ∧ ¬((45 : Int) = 0 ∨ (45 : Int) = 90 ∨ (45 : Int) = 180 ∨ (45 : Int) = 270) := by
  exact ⟨rfl, by decide⟩

/-- Claim C8 (amended): the code enforces no containment on rotation.
`rotate(d)` stores exactly `d` in the rendered rotation state for every
integer `d`, the canonical snapshot is the hook chain applied to a state whose
rotation is `d`, and with no rewriting hooks the canonical rotation is `d`
itself; membership in `{0, 90, 180, 270}` holds only when callers and hooks
confine themselves to those values. -/
theorem rotate_stores_argument (plugins : List Plugin) (propFile : JSFile)
    (st : InnerState) (d : Int) :
    (rotate plugins propFile st d).rotation = d
    ∧ (rotate plugins propFile st d).stateRef
        = applyHooks plugins
            { file := propFile, pageIndex := st.currentPage, rotation := d, scale := st.scale }
    ∧ (rotate [] propFile st d).stateRef.rotation = d := by
  exact ⟨rfl, rfl, rfl⟩

/-- Claim C5: for every index outside `[0, numPages)`, `jumpToPage` returns
the controller state unchanged — a silent no-op with no error. -/
theorem jumpToPage_out_of_range (numPages : Nat) (st : InnerState) (pageIndex : Int)
    (h : pageIndex < 0 ∨ (numPages : Int) ≤ pageIndex) :
    jumpToPage numPages st pageIndex = st := by
  unfold jumpToPage
  rw [if_pos h]

/-- Claim C5 witness: `jumpToPage 5` on a three-page document leaves the
sample state untouched. -/
theorem jumpToPage_out_of_range_witness :
    ((5 : Int) < 0 ∨ ((3 : Nat) : Int) ≤ 5) ∧ jumpToPage 3 sampleInner 5 = sampleInner :=
  ⟨by decide, jumpToPage_out_of_range 3 sampleInner 5 (by decide)⟩

/-- Claim C3: with the pages container mounted at size `W×H` and a positive
page size `w×h`, `zoom PageFit` sets the scale to
`min ((W - 17)/w) ((H - 16)/h)`, `zoom PageWidth` to `(W - 17)/w`, and
`zoom ActualSize` to `1`. -/
theorem zoom_special_levels (plugins : List Plugin) (propFile : JSFile)
    (pageWidth pageHeight : ℚ) (st : InnerState) (ele : PagesEle)
    (hm : st.pagesRef = some ele) (hw : 0 < pageWidth) (hh : 0 < pageHeight) :
    (zoom plugins propFile pageWidth pageHeight st
        (ZoomArg.special SpecialZoomLevel.PageFit)).scale
      = min ((ele.offsetWidth - 17) / pageWidth) ((ele.offsetHeight - 16) / pageHeight)
    ∧ (zoom plugins propFile pageWidth pageHeight st
        (ZoomArg.special SpecialZoomLevel.PageWidth)).scale
      = (ele.offsetWidth - 17) / pageWidth
    ∧ (zoom plugins propFile pageWidth pageHeight st
        (ZoomArg.special SpecialZoomLevel.ActualSize)).scale = 1 := by
  unfold zoom
  rw [hm]
  refine ⟨?_, rfl, rfl⟩
  show min ((ele.offsetWidth - SCROLL_BAR_WIDTH) / pageWidth)
        ((ele.offsetHeight - 2 * PAGE_PADDING) / pageHeight)
      = min ((ele.offsetWidth - 17) / pageWidth) ((ele.offsetHeight - 16) / pageHeight)
  norm_num [SCROLL_BAR_WIDTH, PAGE_PADDING]

/-- A sample controller state whose pages container is mounted with
`offsetWidth = 100` and `offsetHeight = 200`. -/
def sampleMounted : InnerState :=
  { sampleInner with
    pagesRef := some { offsetWidth := 100, offsetHeight := 200, scrollTop := 0 } }

/-- Claim C3 witness: on a `100×200` container with a `10×20` page,
`PageFit` yields `min (83/10) (92/10)`, `PageWidth` yields `83/10`,
`ActualSize` yields `1`. -/
theorem zoom_special_levels_witness :
    sampleMounted.pagesRef = some { offsetWidth := 100, offsetHeight := 200, scrollTop := 0 }
    ∧ (0 : ℚ) < 10 ∧ (0 : ℚ) < 20
    ∧ ((zoom [] sampleViewerState.file 10 20 sampleMounted
          (ZoomArg.special SpecialZoomLevel.PageFit)).scale
        = min (((100 : ℚ) - 17) / 10) (((200 : ℚ) - 16) / 20)
      ∧ (zoom [] sampleViewerState.file 10 20 sampleMounted
          (ZoomArg.special SpecialZoomLevel.PageWidth)).scale = ((100 : ℚ) - 17) / 10
      ∧ (zoom [] sampleViewerState.file 10 20 sampleMounted
          (ZoomArg.special SpecialZoomLevel.ActualSize)).scale = 1) :=
  ⟨rfl, by decide, by decide,
    zoom_special_levels [] sampleViewerState.file 10 20 sampleMounted
      { offsetWidth := 100, offsetHeight := 200, scrollTop := 0 } rfl (by decide) (by decide)⟩

/-- A freshly mounted-then-unmounted two-page controller: DOM refs absent
(`pagesRef = none`, both page refs `none`), current page `0`. -/
def unmountedInner : InnerState := initialInnerState 1 sampleViewerState 2

/-- Claim C9 counterexample: with the pages-container reference missing and
the in-range index `1`, `jumpToPage 1` is not a no-op: it changes the current
page index from `0` to `1` (only the scroll is skipped). -/
theorem jumpToPage_missing_refs_changes_page :
    unmountedInner.pagesRef = none
    ∧ unmountedInner.currentPage = 0
    ∧ (jumpToPage 2 unmountedInner 1).currentPage = 1
    ∧ jumpToPage 2 unmountedInner 1 ≠ unmountedInner := by
  refine ⟨rfl, rfl, rfl, ?_⟩
  decide

/-- Claim C9 (amended): for every in-range index, when the pages-container
reference or the target page's reference is missing at computation time,
`jumpToPage` skips the scroll — the returned state is exactly the old state
with `currentPage` set to the index; the scroll position and the rest of the
viewer state are unchanged, and no error is raised. -/
theorem jumpToPage_missing_refs_skips_scroll (numPages : Nat) (st : InnerState)
    (pageIndex : Int) (h0 : 0 ≤ pageIndex) (h1 : pageIndex < (numPages : Int))
    (href : st.pagesRef = none ∨ st.pageRefs.getD pageIndex.toNat none = none) :
    jumpToPage numPages st pageIndex = { st with currentPage := pageIndex } := by
  unfold jumpToPage
  rw [if_neg (by omega)]
  have hs :
      (match st.pagesRef with
        | some pagesContainer =>
          match st.pageRefs.getD pageIndex.toNat none with
          | some targetPage =>
              { st with pagesRef := some { pagesContainer with scrollTop := targetPage.offsetTop } }
          | none => st
        | none => st) = st := by
    rcases href with h | h
    · rw [h]
    · cases hc : st.pagesRef with
      | none => rfl
      | some pagesContainer => rw [h]
  rw [hs]

/-- Claim C9 witness (for the amended claim): on the unmounted two-page
controller, `jumpToPage 1` returns the same state with `currentPage := 1`. -/
theorem jumpToPage_missing_refs_skips_scroll_witness :
    ((0 : Int) ≤ 1 ∧ (1 : Int) < ((2 : Nat) : Int)
      ∧ (unmountedInner.pagesRef = none
          ∨ unmountedInner.pageRefs.getD (1 : Int).toNat none = none))
    ∧ jumpToPage 2 unmountedInner 1 = { unmountedInner with currentPage := 1 } :=
  ⟨⟨by decide, by decide, Or.inl rfl⟩,
    jumpToPage_missing_refs_skips_scroll 2 unmountedInner 1 (by decide) (by decide) (Or.inl rfl)⟩

/-- The characters after the last `.` of a character list, or `none` when the
list holds no `.`. -/
def extAux : List Char → Option (List Char)
  | [] => none
  | c :: cs =>
    match extAux cs with
    | some e => some e
    | none => if c = '.' then some cs else none

/-- Modelled from the spec: the helper `getFileExt` (imported by Inner.tsx from
src/utils/fileExt, a file this repository snapshot does not include; spec §1
treats file-extension sniffing as an external collaborator) extracts a file
name's extension — the text after the last dot, or the empty string when the
name has no dot. -/
def getFileExt (fileName : String) : String :=
  match extAux fileName.toList with
  | some e => String.mk e
  | none => ""

/-- JavaScript's `String.prototype.toLowerCase`, restricted to the alphabetic
mapping: lower-case every character. -/
def toLowerCase (s : String) : String :=
  String.mk (s.toList.map Char.toLower)

/-- `openFile` (Inner.tsx:129-143): returns early when the lower-cased
extension of the file's name differs from `'pdf'`; otherwise reads the file's
bytes and forwards `(file.name, bytes)` to the host's `onOpenFile` callback.
The returned option is the invocation of `onOpenFile` that eventually happens
(`none` means the callback is never invoked). -/
def openFile (file : JSFile) : Option (String × List Nat) :=
  if toLowerCase (getFileExt file.name) ≠ "pdf" then none
  else some (file.name, file.content)

/-- Claim C6: a file whose name's extension, compared case-insensitively, is
not `'pdf'` is silently rejected by `openFile`: the host `onOpenFile` callback
is never invoked and no error is surfaced. -/
theorem openFile_rejects_non_pdf (file : JSFile)
    (h : toLowerCase (getFileExt file.name) ≠ "pdf") :
    openFile file = none := by
  unfold openFile
  rw [if_pos h]

/-- Claim C6 witness: `notes.TXT` has lower-cased extension `txt`, so
`openFile` never reaches the host callback. -/
theorem openFile_rejects_non_pdf_witness :
    toLowerCase (getFileExt "notes.TXT") ≠ "pdf"
    ∧ openFile { name := "notes.TXT", content := [1, 2] } = none :=
  ⟨by decide, openFile_rejects_non_pdf { name := "notes.TXT", content := [1, 2] } (by decide)⟩

/-- The values `jumpToDest` (Inner.tsx:247-274) captures synchronously before
awaiting the page geometry: the destination, the `scale` state variable closed
over at call time, and the fact that a pages container existed (otherwise the
whole call returned early and nothing is pending). -/
structure PendingDest where
  pageIndex : Int
  bottomOffset : ℚ
  scaleTo : ZoomArg
  capturedScale : ℚ
deriving DecidableEq

/-- The synchronous phase of `jumpToDest`: returns early (nothing pending)
when `pagesRef.current` is null, otherwise captures the call's arguments and
the current scale and starts the asynchronous `doc.getPage` fetch. -/
def jumpToDestStart (st : InnerState) (pageIndex : Int) (bottomOffset : ℚ)
    (scaleTo : ZoomArg) : Option PendingDest :=
  match st.pagesRef with
  | none => none
  | some _ =>
      some { pageIndex := pageIndex
             bottomOffset := bottomOffset
             scaleTo := scaleTo
             capturedScale := st.scale }

/-- The `.then` continuation of `jumpToDest`, run against the controller state
`st` current when the geometry resolves.  In the `PageFit` case it first
re-zooms (a no-op when the container is gone) and offsets by zero; otherwise
the offset is `(viewport.height - bottomOffset) * capturedScale`.  It then
reads the target page's ref from the current state; when that ref is detached
nothing is scrolled.  A `scrollTop` write lands on the viewer only while the
pages container is still mounted (writing to the captured, now-detached node
would be invisible). -/
def jumpToDestResolve (plugins : List Plugin) (propFile : JSFile)
    (pageWidth pageHeight : ℚ) (pd : PendingDest) (viewportHeight : ℚ)
    (st : InnerState) : InnerState :=
  let stAfterZoom :=
    match pd.scaleTo with
    | ZoomArg.special SpecialZoomLevel.PageFit =>
        zoom plugins propFile pageWidth pageHeight st (ZoomArg.special SpecialZoomLevel.PageFit)
    | _ => st
  let top : ℚ :=
    match pd.scaleTo with
    | ZoomArg.special SpecialZoomLevel.PageFit => 0
    | _ => (viewportHeight - pd.bottomOffset) * pd.capturedScale
  match stAfterZoom.pageRefs.getD pd.pageIndex.toNat none with
  | none => stAfterZoom
  | some targetPage =>
    match stAfterZoom.pagesRef with
    | none => stAfterZoom
    | some c =>
        { stAfterZoom with
          pagesRef := some { c with scrollTop := targetPage.offsetTop + top } }

/-- Unmounting the component: React clears `pagesRef.current` and calls every
page wrapper's ref callback with `null`, so all DOM refs become absent. -/
def unmountRefs (st : InnerState) : InnerState :=
  { st with
    pagesRef := none
    pageRefs := st.pageRefs.map (fun _ => none) }

lemma getD_map_none (l : List (Option PageEle)) (i : Nat) :
    (l.map (fun _ => (none : Option PageEle))).getD i none = none := by
  rw [List.getD_eq_getElem?_getD, List.getElem?_map]
  cases l[i]? <;> rfl

/-- Claim C7: when the page container is unmounted before the asynchronous
page-geometry fetch of `jumpToDest` resolves, the stale continuation is a
no-op: no scroll position is set and the controller state does not change. -/
theorem jumpToDestResolve_noop_after_unmount (plugins : List Plugin)
    (propFile : JSFile) (pageWidth pageHeight : ℚ) (pd : PendingDest)
    (viewportHeight : ℚ) (st : InnerState) :
    jumpToDestResolve plugins propFile pageWidth pageHeight pd viewportHeight
        (unmountRefs st)
      = unmountRefs st := by
  obtain ⟨pageIndex, bottomOffset, scaleTo, capturedScale⟩ := pd
  have h2 : (unmountRefs st).pageRefs.getD pageIndex.toNat none = (none : Option PageEle) :=
    getD_map_none st.pageRefs pageIndex.toNat
  have hz :
      zoom plugins propFile pageWidth pageHeight (unmountRefs st)
          (ZoomArg.special SpecialZoomLevel.PageFit)
        = unmountRefs st := by
    unfold zoom
    rfl
  cases scaleTo with
  | special level =>
    cases level with
    | ActualSize =>
      simp only [jumpToDestResolve]
      rw [h2]
    | PageFit =>
      simp only [jumpToDestResolve]
      rw [hz, h2]
    | PageWidth =>
      simp only [jumpToDestResolve]
      rw [h2]
  | numeric factor =>
    simp only [jumpToDestResolve]
    rw [h2]

/-- The two kinds of lifecycle hook the mount effect (Inner.tsx:109-127)
invokes. -/
inductive HookKind
  | install
  | uninstall
deriving DecidableEq

/-- One lifecycle hook invocation: which hook, on which plugin (its position
in the `plugins` list), and with which capability object (identified by an
opaque token — both loops pass the same `pluginMethods` object). -/
structure HookCall where
  kind : HookKind
  pluginIndex : Nat
  capability : Nat
deriving DecidableEq

/-- One `plugins.forEach` lifecycle loop: for each plugin in list order, if it
defines the hook, invoke it with the capability object.  `i` is the position
of the first plugin of the remaining list. -/
def hookLoop (hasHook : Plugin → Bool) (kind : HookKind) :
    List Plugin → Nat → Nat → List HookCall
  | [], _, _ => []
  | p :: ps, i, cap =>
    (if hasHook p then [{ kind := kind, pluginIndex := i, capability := cap }] else [])
      ++ hookLoop hasHook kind ps (i + 1) cap

/-- The install loop run by the mount effect. -/
def installLoop (plugins : List Plugin) (i : Nat) (cap : Nat) : List HookCall :=
  hookLoop Plugin.hasInstall HookKind.install plugins i cap

/-- The uninstall loop run by the effect's cleanup at unmount, over the same
list with the same captured `pluginMethods`. -/
def uninstallLoop (plugins : List Plugin) (i : Nat) (cap : Nat) : List HookCall :=
  hookLoop Plugin.hasUninstall HookKind.uninstall plugins i cap

/-- The full trace of lifecycle hook invocations over one mount/unmount
cycle: all installs at mount, then all uninstalls at unmount. -/
def mountUnmountTrace (plugins : List Plugin) (cap : Nat) : List HookCall :=
  installLoop plugins 0 cap ++ uninstallLoop plugins 0 cap

lemma hookLoop_mem (hasHook : Plugin → Bool) (kind : HookKind) :
    ∀ (ps : List Plugin) (i0 cap : Nat) (c : HookCall),
      c ∈ hookLoop hasHook kind ps i0 cap →
      c.kind = kind ∧ c.capability = cap ∧ i0 ≤ c.pluginIndex
        ∧ c.pluginIndex < i0 + ps.length
  | [], _, _, c, h => absurd h (List.not_mem_nil c)
  | p :: ps, i0, cap, c, h => by
    simp only [hookLoop] at h
    rcases List.mem_append.mp h with h1 | h2
    · by_cases hp : hasHook p
      · rw [if_pos hp] at h1
        rcases List.mem_singleton.mp h1 with rfl
        refine ⟨rfl, rfl, le_refl _, ?_⟩
        simp only [List.length_cons]
        omega
      · rw [if_neg hp] at h1
        exact absurd h1 (List.not_mem_nil c)
    · obtain ⟨hk, hc, hlo, hhi⟩ := hookLoop_mem hasHook kind ps (i0 + 1) cap c h2
      refine ⟨hk, hc, by omega, ?_⟩
      simp only [List.length_cons]
      omega

lemma hookLoop_count (hasHook : Plugin → Bool) (kind : HookKind) :
    ∀ (ps : List Plugin) (i0 cap j : Nat),
      (hookLoop hasHook kind ps i0 cap).countP (fun c => c.pluginIndex == i0 + j)
        = if ps[j]?.elim false hasHook then 1 else 0
  | [], i0, cap, j => by
    simp [hookLoop]
  | p :: ps, i0, cap, 0 => by
    simp only [hookLoop, List.countP_append]
    have hrest :
        (hookLoop hasHook kind ps (i0 + 1) cap).countP (fun c => c.pluginIndex == i0 + 0) = 0 := by
      rw [List.countP_eq_zero]
      intro c hc
      obtain ⟨_, _, hlo, _⟩ := hookLoop_mem hasHook kind ps (i0 + 1) cap c hc
      simp only [beq_iff_eq]
      omega
    rw [hrest]
    by_cases hp : hasHook p
    · rw [if_pos hp]
      simp [hp]
    · rw [if_neg hp]
      simp [hp]
  | p :: ps, i0, cap, j + 1 => by
    simp only [hookLoop, List.countP_append]
    have hpre :
        (if hasHook p then [({ kind := kind, pluginIndex := i0, capability := cap } : HookCall)]
          else []).countP (fun c => c.pluginIndex == i0 + (j + 1)) = 0 := by
      by_cases hp : hasHook p
      · rw [if_pos hp]
        simp only [List.countP_cons, List.countP_nil]
        have : ¬(i0 = i0 + (j + 1)) := by omega
        simp [this]
      · rw [if_neg hp]
        rfl
    rw [hpre]
    have harith : i0 + (j + 1) = (i0 + 1) + j := by omega
    rw [harith]
    rw [hookLoop_count hasHook kind ps (i0 + 1) cap j]
    simp

lemma hookLoop_pairwise (hasHook : Plugin → Bool) (kind : HookKind) :
    ∀ (ps : List Plugin) (i0 cap : Nat),
      List.Pairwise (fun a b => a.pluginIndex < b.pluginIndex)
        (hookLoop hasHook kind ps i0 cap)
  | [], _, _ => List.Pairwise.nil
  | p :: ps, i0, cap => by
    simp only [hookLoop]
    rw [List.pairwise_append]
    refine ⟨?_, hookLoop_pairwise hasHook kind ps (i0 + 1) cap, ?_⟩
    · by_cases hp : hasHook p
      · rw [if_pos hp]
        exact List.pairwise_singleton _ _
      · rw [if_neg hp]
        exact List.Pairwise.nil
    · intro a ha b hb
      obtain ⟨_, _, hlo, _⟩ := hookLoop_mem hasHook kind ps (i0 + 1) cap b hb
      by_cases hp : hasHook p
      · rw [if_pos hp] at ha
        rcases List.mem_singleton.mp ha with rfl
        simpa using Nat.lt_of_lt_of_le (Nat.lt_succ_self i0) hlo
      · rw [if_neg hp] at ha
        exact absurd ha (List.not_mem_nil a)

/-- Claim C4: over one mount/unmount cycle with plugin list fixed at mount,
each plugin's install hook (when defined) is invoked exactly once at mount and
its uninstall hook (when defined) exactly once at unmount — never for plugins
without the hook — both traversals visiting plugins in increasing list order,
every invocation receiving the same capability object, and all installs
preceding all uninstalls in the trace. -/
theorem plugin_lifecycle_once_in_order (plugins : List Plugin) (cap : Nat) (i : Nat) :
    ((mountUnmountTrace plugins cap).countP
        (fun c => c.kind == HookKind.install && c.pluginIndex == i)
      = if plugins[i]?.elim false Plugin.hasInstall then 1 else 0)
    ∧ ((mountUnmountTrace plugins cap).countP
        (fun c => c.kind == HookKind.uninstall && c.pluginIndex == i)
      = if plugins[i]?.elim false Plugin.hasUninstall then 1 else 0)
    ∧ List.Pairwise (fun a b => a.pluginIndex < b.pluginIndex) (installLoop plugins 0 cap)
    ∧ List.Pairwise (fun a b => a.pluginIndex < b.pluginIndex) (uninstallLoop plugins 0 cap)
    ∧ (∀ c ∈ mountUnmountTrace plugins cap, c.capability = cap)
    ∧ mountUnmountTrace plugins cap = installLoop plugins 0 cap ++ uninstallLoop plugins 0 cap := by
  have memIn := hookLoop_mem Plugin.hasInstall HookKind.install plugins 0 cap
  have memOut := hookLoop_mem Plugin.hasUninstall HookKind.uninstall plugins 0 cap
  refine ⟨?_, ?_, hookLoop_pairwise _ _ plugins 0 cap, hookLoop_pairwise _ _ plugins 0 cap,
    ?_, rfl⟩
  · rw [mountUnmountTrace, List.countP_append]
    have hout :
        (uninstallLoop plugins 0 cap).countP
          (fun c => c.kind == HookKind.install && c.pluginIndex == i) = 0 := by
      rw [List.countP_eq_zero]
      intro c hc
      obtain ⟨hk, _, _, _⟩ := memOut c hc
      simp [hk]
    have hin :
        (installLoop plugins 0 cap).countP
            (fun c => c.kind == HookKind.install && c.pluginIndex == i)
          = (installLoop plugins 0 cap).countP (fun c => c.pluginIndex == i) := by
      apply List.countP_congr
      intro c hc
      obtain ⟨hk, _, _, _⟩ := memIn c hc
      simp [hk]
    rw [hout, hin, Nat.add_zero]
    have := hookLoop_count Plugin.hasInstall HookKind.install plugins 0 cap i
    simpa using this
  · rw [mountUnmountTrace, List.countP_append]
    have hinz :
        (installLoop plugins 0 cap).countP
          (fun c => c.kind == HookKind.uninstall && c.pluginIndex == i) = 0 := by
      rw [List.countP_eq_zero]
      intro c hc
      obtain ⟨hk, _, _, _⟩ := memIn c hc
      simp [hk]
    have hout :
        (uninstallLoop plugins 0 cap).countP
            (fun c => c.kind == HookKind.uninstall && c.pluginIndex == i)
          = (uninstallLoop plugins 0 cap).countP (fun c => c.pluginIndex == i) := by
      apply List.countP_congr
      intro c hc
      obtain ⟨hk, _, _, _⟩ := memOut c hc
      simp [hk]
    rw [hinz, hout, Nat.zero_add]
    have := hookLoop_count Plugin.hasUninstall HookKind.uninstall plugins 0 cap i
    simpa using this
  · intro c hc
    rcases List.mem_append.mp hc with h | h
    · exact (memIn c h).2.1
    · exact (memOut c h).2.1

/-- The reduction callback of `pageVisibilityChanged` (Inner.tsx:224-226):
`(maxIndex, item, index, array) => item > array[maxIndex] ? index : maxIndex`.
`x` packs `(index, item)` as produced by enumerating the array. -/
def reduceStep (pageVisibility : List ℚ) (maxIndex : Nat) (x : Nat × ℚ) : Nat :=
  if pageVisibility.getD maxIndex 0 < x.2 then x.1 else maxIndex

/-- `pageVisibility.reduce(..., 0)`: the index of the most visible page, the
earliest index winning ties (only a strictly greater ratio displaces the
running maximum). -/
def maxRatioPage (pageVisibility : List ℚ) : Nat :=
  pageVisibility.enum.foldl (reduceStep pageVisibility) 0

/-- `pageVisibilityChanged` (Inner.tsx:222-230): record the reported ratio for
the page, recompute the most visible page, and set `currentPage` only when the
result differs from it.  Returns the new controller state and the updated
ratio array. -/
def pageVisibilityChanged (st : InnerState) (pageVisibility : List ℚ)
    (pageIndex : Nat) (ratio : ℚ) : InnerState × List ℚ :=
  let pv := pageVisibility.set pageIndex ratio
  let maxPage := maxRatioPage pv
  if (maxPage : Int) ≠ st.currentPage then
    ({ st with currentPage := (maxPage : Int) }, pv)
  else (st, pv)

lemma maxRatioPage_aux (pv : List ℚ) (l : List ℚ) :
    ∀ (k a : Nat),
      (∀ j, j < l.length → l.getD j 0 = pv.getD (k + j) 0) →
      k + l.length ≤ pv.length →
      a < pv.length →
      (∀ j, j < k → pv.getD j 0 ≤ pv.getD a 0) →
      (∀ j, j < a → pv.getD j 0 < pv.getD a 0) →
      ((List.enumFrom k l).foldl (reduceStep pv) a < pv.length
        ∧ (∀ j, j < k + l.length →
            pv.getD j 0 ≤ pv.getD ((List.enumFrom k l).foldl (reduceStep pv) a) 0)
        ∧ (∀ j, j < (List.enumFrom k l).foldl (reduceStep pv) a →
            pv.getD j 0 < pv.getD ((List.enumFrom k l).foldl (reduceStep pv) a) 0)) := by
  induction l with
  | nil =>
    intro k a _ _ ha hk hstrict
    exact ⟨ha, fun j hj => hk j (by simpa using hj), hstrict⟩
  | cons x xs ih =>
    intro k a helt hlen ha hk hstrict
    have hx : x = pv.getD k 0 := by
      have h0 := helt 0 (by simp)
      simpa using h0
    have hklen : k < pv.length := by
      simp only [List.length_cons] at hlen
      omega
    have hstep : (List.enumFrom k (x :: xs)).foldl (reduceStep pv) a
        = (List.enumFrom (k + 1) xs).foldl (reduceStep pv) (reduceStep pv a (k, x)) := rfl
    rw [hstep]
    have helt' : ∀ j, j < xs.length → xs.getD j 0 = pv.getD (k + 1 + j) 0 := by
      intro j hj
      have h0 := helt (j + 1) (by simpa using Nat.succ_lt_succ hj)
      rw [List.getD_cons_succ] at h0
      have harith : k + (j + 1) = k + 1 + j := by omega
      rw [harith] at h0
      exact h0
    have hlen' : k + 1 + xs.length ≤ pv.length := by
      simp only [List.length_cons] at hlen
      omega
    by_cases hcmp : pv.getD a 0 < x
    · have hred : reduceStep pv a (k, x) = k := by
        unfold reduceStep
        rw [if_pos hcmp]
      rw [hred]
      rw [hx] at hcmp
      have hk' : ∀ j, j < k + 1 → pv.getD j 0 ≤ pv.getD k 0 := by
        intro j hj
        have : j < k ∨ j = k := by omega
        rcases this with h | h
        · exact le_of_lt (lt_of_le_of_lt (hk j h) hcmp)
        · subst h
          exact le_refl _
      have hstrict' : ∀ j, j < k → pv.getD j 0 < pv.getD k 0 := by
        intro j hj
        exact lt_of_le_of_lt (hk j hj) hcmp
      have hres := ih (k + 1) k helt' hlen' hklen hk' hstrict'
      refine ⟨hres.1, ?_, hres.2.2⟩
      intro j hj
      apply hres.2.1
      simp only [List.length_cons] at hj
      omega
    · have hred : reduceStep pv a (k, x) = a := by
        unfold reduceStep
        rw [if_neg hcmp]
      rw [hred]
      rw [hx] at hcmp
      have hk' : ∀ j, j < k + 1 → pv.getD j 0 ≤ pv.getD a 0 := by
        intro j hj
        have : j < k ∨ j = k := by omega
        rcases this with h | h
        · exact hk j h
        · subst h
          exact not_lt.mp hcmp
      have hres := ih (k + 1) a helt' hlen' ha hk' hstrict
      refine ⟨hres.1, ?_, hres.2.2⟩
      intro j hj
      apply hres.2.1
      simp only [List.length_cons] at hj
      omega

lemma maxRatioPage_spec (pv : List ℚ) (hpv : 0 < pv.length) :
    maxRatioPage pv < pv.length
    ∧ (∀ j, j < pv.length → pv.getD j 0 ≤ pv.getD (maxRatioPage pv) 0)
    ∧ (∀ j, j < maxRatioPage pv → pv.getD j 0 < pv.getD (maxRatioPage pv) 0) := by
  have h := maxRatioPage_aux pv pv 0 0
    (fun j _ => by rw [Nat.zero_add])
    (by omega) hpv
    (fun j hj => absurd hj (Nat.not_lt_zero j))
    (fun j hj => absurd hj (Nat.not_lt_zero j))
  have heq : maxRatioPage pv = (List.enumFrom 0 pv).foldl (reduceStep pv) 0 := rfl
  rw [heq]
  exact ⟨h.1, fun j hj => h.2.1 j (by omega), h.2.2⟩

/-- Claim C2: after recording ratio `r` for page `p`, the tracker selects the
arg-max over all pages' ratios with ties broken toward the smallest index
(every earlier index has a strictly smaller ratio); for ratios
`[0.2, 0.9, 0.9]` the selected page is index `1`; and `currentPage` is
rewritten only when this arg-max differs from it. -/
theorem pageVisibilityChanged_selects_first_max (st : InnerState) (pv : List ℚ)
    (p : Nat) (r : ℚ) (hp : p < pv.length) :
    (maxRatioPage (pv.set p r) < (pv.set p r).length
      ∧ (∀ j, j < (pv.set p r).length →
          (pv.set p r).getD j 0 ≤ (pv.set p r).getD (maxRatioPage (pv.set p r)) 0)
      ∧ (∀ j, j < maxRatioPage (pv.set p r) →
          (pv.set p r).getD j 0 < (pv.set p r).getD (maxRatioPage (pv.set p r)) 0))
    ∧ maxRatioPage [2/10, 9/10, 9/10] = 1
    ∧ pageVisibilityChanged st pv p r
        = (if (maxRatioPage (pv.set p r) : Int) ≠ st.currentPage
            then ({ st with currentPage := (maxRatioPage (pv.set p r) : Int) }, pv.set p r)
            else (st, pv.set p r))
    ∧ ((maxRatioPage (pv.set p r) : Int) = st.currentPage →
        (pageVisibilityChanged st pv p r).1 = st) := by
  have hlen : 0 < (pv.set p r).length := by
    rw [List.length_set]
    omega
  refine ⟨maxRatioPage_spec _ hlen, ?_, rfl, ?_⟩
  · norm_num [maxRatioPage, reduceStep, List.enum, List.enumFrom, List.foldl, List.getD]
  · intro h
    simp only [pageVisibilityChanged]
    rw [if_neg (not_not_intro h)]

/-- Claim C2 witness: reporting ratio `1` for page `0` of a one-page tracker. -/
theorem pageVisibilityChanged_selects_first_max_witness :
    0 < [(0 : ℚ)].length
    ∧ ((maxRatioPage ([(0 : ℚ)].set 0 1) < ([(0 : ℚ)].set 0 1).length
        ∧ (∀ j, j < ([(0 : ℚ)].set 0 1).length →
            ([(0 : ℚ)].set 0 1).getD j 0
              ≤ ([(0 : ℚ)].set 0 1).getD (maxRatioPage ([(0 : ℚ)].set 0 1)) 0)
        ∧ (∀ j, j < maxRatioPage ([(0 : ℚ)].set 0 1) →
            ([(0 : ℚ)].set 0 1).getD j 0
              < ([(0 : ℚ)].set 0 1).getD (maxRatioPage ([(0 : ℚ)].set 0 1)) 0))
      ∧ maxRatioPage [2/10, 9/10, 9/10] = 1
      ∧ pageVisibilityChanged sampleInner [(0 : ℚ)] 0 1
          = (if (maxRatioPage ([(0 : ℚ)].set 0 1) : Int) ≠ sampleInner.currentPage
              then ({ sampleInner with currentPage := (maxRatioPage ([(0 : ℚ)].set 0 1) : Int) },
                    [(0 : ℚ)].set 0 1)
              else (sampleInner, [(0 : ℚ)].set 0 1))
      ∧ ((maxRatioPage ([(0 : ℚ)].set 0 1) : Int) = sampleInner.currentPage →
          (pageVisibilityChanged sampleInner [(0 : ℚ)] 0 1).1 = sampleInner)) :=
  ⟨by decide, pageVisibilityChanged_selects_first_max sampleInner [(0 : ℚ)] 0 1 (by decide)⟩

end RPV
